import Mathlib

/-!
# Verification of the DJ Assistant catalog loader and recommendation engine

Shallow embedding of `src/dj_assistant.py` (classes `Song` and `DJAssistant`):
the catalog loader `load_songs` and the recommendation engine `recommend`,
together with the Python string primitives they rely on.  Python strings are
modelled as Lean `String`s restricted to ASCII content (all catalog data and
all literals in the program are ASCII); machine integers are `Int`.
-/

namespace DJ

/-- The ASCII whitespace characters recognised by Python `str.strip()`. -/
def pyIsSpace (c : Char) : Bool :=
  c = ' ' || c = '\t' || c = '\n' || c = '\x0d' || c = '\x0b' || c = '\x0c'

/-- Strip `pyIsSpace` characters from both ends of a character list. -/
def stripChars (l : List Char) : List Char :=
  ((l.dropWhile pyIsSpace).reverse.dropWhile pyIsSpace).reverse

/-- Python `str.strip()` (ASCII whitespace). -/
def pyStrip (s : String) : String :=
  String.mk (stripChars s.toList)

/-- Python `str.lower()` on ASCII content. -/
def pyLower (s : String) : String :=
  String.mk (s.toList.map Char.toLower)

/-- Python `str.replace(" ", "")`: delete every space character. -/
def removeSpaces (s : String) : String :=
  String.mk (s.toList.filter (fun c => c ≠ ' '))

/-- Split a character list at every occurrence of the character `c`
(Python `str.split(c)` semantics: `n` separators yield `n+1` pieces). -/
def splitCharAux (c : Char) : List Char → List (List Char)
  | [] => [[]]
  | x :: xs =>
    match splitCharAux c xs with
    | [] => [[]]
    | h :: t => if x = c then [] :: h :: t else (x :: h) :: t

/-- Python `line.split(",")`. -/
def pySplitComma (s : String) : List String :=
  (splitCharAux ',' s.toList).map String.mk

/-- Python `",".join(parts)`. -/
def pyJoinComma : List String → String
  | [] => ""
  | [s] => s
  | s :: rest => s ++ "," ++ pyJoinComma rest

/-- Python `"," in s`. -/
def containsComma (s : String) : Bool :=
  s.toList.contains ','

/-- Python `s.split(",", 1)`: split at the first comma only (the first
component is everything before it, the second everything after). -/
def splitFirstComma (s : String) : String × String :=
  match pySplitComma s with
  | [] => (s, "")
  | t :: rest => (t, pyJoinComma rest)

/-- ASCII decimal digit test. -/
def isAsciiDigit (c : Char) : Bool :=
  '0' ≤ c && c ≤ '9'

/-- Whether a character list is a valid Python integer digit group:
nonempty, made of digits and underscores, beginning and ending with a
digit, with no two consecutive underscores (underscores sit between
digits, as in `1_000`). -/
def pyDigitsOk (l : List Char) : Bool :=
  !l.isEmpty
  && l.all (fun c => isAsciiDigit c || c = '_')
  && (match l.head? with | some c => isAsciiDigit c | none => false)
  && (match l.getLast? with | some c => isAsciiDigit c | none => false)
  && !(l.zip l.tail).any (fun p => p.1 = '_' && p.2 = '_')

/-- Numeric value of a digit list (underscores removed beforehand). -/
def digitsVal (l : List Char) : Nat :=
  l.foldl (fun acc c => acc * 10 + (c.toNat - '0'.toNat)) 0

/-- Parse a digit group as a natural number, Python-style. -/
def pyNatOf (l : List Char) : Option Nat :=
  if pyDigitsOk l then some (digitsVal (l.filter isAsciiDigit)) else none

/-- Python `int(s)` on an already-stripped ASCII string: an optional sign
followed by a digit group; `none` models a raised `ValueError`. -/
def pyIntOfList : List Char → Option Int
  | '+' :: rest => (pyNatOf rest).map Int.ofNat
  | '-' :: rest => (pyNatOf rest).map (fun n => -(Int.ofNat n))
  | l => (pyNatOf l).map Int.ofNat

/-- Python `int(s)` (surrounding whitespace is ignored). -/
def pyInt (s : String) : Option Int :=
  pyIntOfList (stripChars s.toList)

/-- `Song._safe_int`: `int(str(value).strip())`, with `default` on failure. -/
def safe_int (value : String) (default : Int) : Int :=
  match pyInt (pyStrip value) with
  | some n => n
  | none => default

/-- One catalog entry, mirroring class `Song`'s fields. -/
structure Song where
  title : String
  artist : String
  genre : String
  bpm : Int
  energy : Int
deriving DecidableEq, Repr

/-- `Song.__init__`: trims the three string fields, converts `bpm` with
default 0 and `energy` with default 3, then forces energy onto the 1–5
scale with the two successive `if` statements of the source. -/
def Song.make (title artist genre bpm energy : String) : Song :=
  let e0 := safe_int energy 3
  let e1 := if e0 < 1 then 1 else e0
  let e2 := if e1 > 5 then 5 else e1
  { title := pyStrip title
    artist := pyStrip artist
    genre := pyStrip genre
    bpm := safe_int bpm 0
    energy := e2 }

/-- `Song.key`: the `(lowercased title, lowercased artist)` identity key. -/
def Song.key (s : Song) : String × String :=
  (pyLower s.title, pyLower s.artist)

/-- Outcome of the per-line portion of `DJAssistant.load_songs`:
`ignored` lines (blank, header, stray header fragment) leave both counters
alone, `counted` lines (malformed or bad bpm) do `skipped += 1`, and `ok`
lines produce a parsed song still subject to deduplication. -/
inductive LineResult where
  | ignored : LineResult
  | counted : LineResult
  | ok : Song → LineResult
deriving DecidableEq, Repr

/-- The body of the `for line in raw_lines` loop of `load_songs`, up to
(but not including) the duplicate check. -/
def parse_line (rawLine : String) : LineResult :=
  let line := pyStrip rawLine
  if line = "" then .ignored
  else
    let lower := removeSpaces (pyLower line)
    if lower = "title,artist,genre,bpm,energy" then .ignored
    else
      let parts := (pySplitComma line).map pyStrip
      if parts.length < 5 then .counted
      else
        match parts.reverse with
        | energy :: bpm :: genre :: restRev =>
          if pyLower (pyStrip bpm) = "bpm" || pyLower (pyStrip energy) = "energy" then
            .ignored
          else
            let left := pyJoinComma restRev.reverse
            if containsComma left = false then .counted
            else
              let ta := splitFirstComma left
              let song := Song.make ta.1 ta.2 genre bpm energy
              if song.bpm = 0 then .counted
              else .ok song
        | _ => .counted

/-- Loop state of `load_songs`: the growing catalog `songs`, the `unique`
set of seen identity keys (modelled as a list), and the two counters. -/
structure LoadState where
  songs : List Song
  unique : List (String × String)
  loaded : Nat
  skipped : Nat
deriving Repr

def initState : LoadState := ⟨[], [], 0, 0⟩

/-- One full iteration of the `load_songs` loop, duplicate check included. -/
def processLine (st : LoadState) (rawLine : String) : LoadState :=
  match parse_line rawLine with
  | .ignored => st
  | .counted => { st with skipped := st.skipped + 1 }
  | .ok song =>
    if song.key ∈ st.unique then st
    else
      { st with
        songs := st.songs ++ [song]
        unique := song.key :: st.unique
        loaded := st.loaded + 1 }

/-- Fatal loader outcomes: `CatalogMissing` models the `FileNotFoundError`
branch, `CatalogEmpty` the `if not self.songs: exit()` branch. -/
inductive LoadError where
  | CatalogMissing : LoadError
  | CatalogEmpty : LoadError
deriving DecidableEq, Repr

/-- `DJAssistant.load_songs` on a fresh assistant.  The source is `none`
when the file does not exist and `some raw_lines` otherwise; on success the
catalog, the `loaded` counter and the `skipped` counter are returned. -/
def load_songs (source : Option (List String)) :
    Except LoadError (List Song × Nat × Nat) :=
  match source with
  | none => .error .CatalogMissing
  | some raw_lines =>
    let st := raw_lines.foldl processLine initState
    if st.songs = [] then .error .CatalogEmpty
    else .ok (st.songs, st.loaded, st.skipped)

/-- Decimal digits of `n`, most significant first (`fuel`-driven structural
recursion; `fuel = n + 1` always suffices). -/
def natDigitsAux : Nat → Nat → List Char
  | 0, _ => []
  | fuel + 1, n =>
    if n < 10 then [Char.ofNat (48 + n)]
    else natDigitsAux fuel (n / 10) ++ [Char.ofNat (48 + n % 10)]

/-- Python `str(n)` for a natural number. -/
def natToStr (n : Nat) : String :=
  String.mk (natDigitsAux (n + 1) n)

/-- Python `str(n)` for an integer. -/
def intToStr (n : Int) : String :=
  if n < 0 then "-" ++ natToStr n.natAbs else natToStr n.natAbs

/-- Python `f"{n:+d}"`: always-signed decimal rendering. -/
def signedFmt (n : Int) : String :=
  if n < 0 then intToStr n else "+" ++ intToStr n

/-- Python `"; ".join(why)`. -/
def joinSemi : List String → String
  | [] => ""
  | [s] => s
  | s :: rest => s ++ "; " ++ joinSemi rest

/-- The score computed for one candidate inside `DJAssistant.recommend`:
base `100 - bpm_diff * 2`, then the goal branch, then the genre bonus. -/
def scoreOf (current_song : Song) (goal : String) (song : Song) : Int :=
  let bpm_diff : Int := |song.bpm - current_song.bpm|
  let energy_diff : Int := song.energy - current_song.energy
  let score := 100 - bpm_diff * 2
  let score :=
    if goal = "up" then
      if energy_diff > 0 then score + 20 else score - 5
    else if goal = "down" then
      if energy_diff < 0 then score + 20 else score - 5
    else
      if energy_diff = 0 then score + 10 else score
  if pyLower song.genre = pyLower current_song.genre then score + 10 else score

/-- The `why` explanation string built for one candidate in `recommend`. -/
def whyOf (current_song : Song) (goal : String) (song : Song) : String :=
  let bpm_diff : Int := |song.bpm - current_song.bpm|
  let energy_diff : Int := song.energy - current_song.energy
  let l1 := "BPM diff: " ++ intToStr bpm_diff
  let l2 :=
    if goal ≠ "same" then
      "Energy change: " ++ signedFmt energy_diff ++ " (goal: " ++ goal ++ ")"
    else
      "Energy: " ++ intToStr song.energy ++ " (goal: same)"
  let why :=
    if pyLower song.genre = pyLower current_song.genre then
      [l1, l2, "Genre match: +10"]
    else [l1, l2]
  joinSemi why

/-- The `recommendations` list as built by the loop of `recommend`, in pool
order: every pool song other than the current one, with score and
explanation. -/
def recsFor (current_song : Song) (goal : String) (pool : List Song) :
    List (Int × Song × String) :=
  (pool.filter (fun song => song.key ≠ current_song.key)).map
    (fun song => (scoreOf current_song goal song, song, whyOf current_song goal song))

/-- Insert into a score-descending list, keeping the inserted element in
front of equal scores (it precedes them in the original list). -/
def insertByScore (x : Int × Song × String) :
    List (Int × Song × String) → List (Int × Song × String)
  | [] => [x]
  | y :: ys => if x.1 < y.1 then y :: insertByScore x ys else x :: y :: ys

/-- `recommendations.sort(reverse=True, key=lambda x: x[0])`: the stable
descending sort by score (Python's sort is stable and `reverse=True` keeps
equal-keyed elements in their original order). -/
def sortByScoreDesc (l : List (Int × Song × String)) :
    List (Int × Song × String) :=
  l.foldr insertByScore []

/-- `DJAssistant.recommend`: score the pool, sort stably by score
descending, return the first five. -/
def recommend (current_song : Song) (goal : String) (pool : List Song) :
    List (Int × Song × String) :=
  (sortByScoreDesc (recsFor current_song goal pool)).take 5

end DJ

namespace DJ

/-! ## Helper lemmas about the stable descending sort -/

/-- "Sorted by score descending": every later entry scores no more than any
earlier one. -/
def SortedDown (l : List (Int × Song × String)) : Prop :=
  List.Pairwise (fun a b => b.1 ≤ a.1) l

lemma mem_insertByScore {x y : Int × Song × String}
    {l : List (Int × Song × String)} :
    y ∈ insertByScore x l ↔ y = x ∨ y ∈ l := by
  induction l with
  | nil => simp [insertByScore]
  | cons z zs ih =>
    simp only [insertByScore]
    split
    · rw [List.mem_cons, ih, List.mem_cons]
      tauto
    · exact List.mem_cons

lemma length_insertByScore (x : Int × Song × String)
    (l : List (Int × Song × String)) :
    (insertByScore x l).length = l.length + 1 := by
  induction l with
  | nil => rfl
  | cons z zs ih =>
    simp only [insertByScore]
    split
    · simp [ih]
    · simp

lemma sortedDown_insertByScore {x : Int × Song × String}
    {l : List (Int × Song × String)} (h : SortedDown l) :
    SortedDown (insertByScore x l) := by
  induction l with
  | nil => simp [insertByScore, SortedDown]
  | cons y ys ih =>
    rcases List.pairwise_cons.mp h with ⟨hy, hys⟩
    simp only [insertByScore]
    split
    · rename_i hlt
      refine List.pairwise_cons.mpr ⟨?_, ih hys⟩
      intro z hz
      rcases mem_insertByScore.mp hz with rfl | hz
      · exact le_of_lt hlt
      · exact hy z hz
    · rename_i hge
      push_neg at hge
      refine List.pairwise_cons.mpr ⟨?_, h⟩
      intro z hz
      rcases List.mem_cons.mp hz with rfl | hz
      · exact hge
      · exact le_trans (hy z hz) hge

lemma sortedDown_sortByScoreDesc (l : List (Int × Song × String)) :
    SortedDown (sortByScoreDesc l) := by
  induction l with
  | nil => simp [sortByScoreDesc, SortedDown]
  | cons x xs ih => exact sortedDown_insertByScore ih

lemma length_sortByScoreDesc (l : List (Int × Song × String)) :
    (sortByScoreDesc l).length = l.length := by
  induction l with
  | nil => rfl
  | cons x xs ih =>
    show (insertByScore x (sortByScoreDesc xs)).length = xs.length + 1
    rw [length_insertByScore, ih]

lemma mem_sortByScoreDesc {y : Int × Song × String}
    {l : List (Int × Song × String)} :
    y ∈ sortByScoreDesc l ↔ y ∈ l := by
  induction l with
  | nil => simp [sortByScoreDesc]
  | cons x xs ih =>
    show y ∈ insertByScore x (sortByScoreDesc xs) ↔ _
    rw [mem_insertByScore, ih]
    simp [eq_comm]

/-- Stability of the insertion step: filtering the inserted list at any
score `k` either prepends the new element (when it has score `k`) or leaves
the filter unchanged. -/
lemma filter_insertByScore (x : Int × Song × String)
    (l : List (Int × Song × String)) (k : Int) :
    (insertByScore x l).filter (fun r => r.1 = k) =
      if x.1 = k then x :: l.filter (fun r => r.1 = k)
      else l.filter (fun r => r.1 = k) := by
  induction l with
  | nil =>
    simp only [insertByScore, List.filter]
    split <;> simp_all
  | cons y ys ih =>
    simp only [insertByScore]
    split
    · rename_i hlt
      by_cases hx : x.1 = k
      · have hy : ¬ (y.1 = k) := by
          intro hk
          rw [hk, ← hx] at hlt
          exact lt_irrefl _ hlt
        simp [List.filter_cons, hy, ih, hx]
      · simp [List.filter_cons, ih, hx]
    · by_cases hx : x.1 = k
      · simp [List.filter_cons, hx]
      · simp [List.filter_cons, hx]

/-- Stability of the whole sort: at every score `k`, the sorted list keeps
the equal-scored entries exactly in their original relative order. -/
lemma filter_sortByScoreDesc (l : List (Int × Song × String)) (k : Int) :
    (sortByScoreDesc l).filter (fun r => r.1 = k) =
      l.filter (fun r => r.1 = k) := by
  induction l with
  | nil => rfl
  | cons x xs ih =>
    show (insertByScore x (sortByScoreDesc xs)).filter _ = _
    rw [filter_insertByScore]
    by_cases hx : x.1 = k
    · simp [List.filter_cons, hx, ih]
    · simp [List.filter_cons, hx, ih]

end DJ

namespace DJ

/-! ## Spec-side definitions (used to state refinement-style claims) -/

/-- Modelled from the spec's wording of the goal adjustment: `+20`/`-5` for
`"up"`/`"down"` depending on the sign of the energy difference, `+10` for
`"same"` (or anything else) when the energy difference is zero. -/
def goalAdjSpec (goal : String) (energyDiff : Int) : Int :=
  if goal = "up" then (if energyDiff > 0 then 20 else -5)
  else if goal = "down" then (if energyDiff < 0 then 20 else -5)
  else if energyDiff = 0 then 10 else 0

/-- Modelled from the spec's wording of the score formula:
`100 - 2*|bpm difference|`, plus the goal adjustment, plus 10 on a
case-insensitive genre match. -/
def specScore (current : Song) (goal : String) (song : Song) : Int :=
  100 - 2 * |song.bpm - current.bpm|
    + goalAdjSpec goal (song.energy - current.energy)
    + (if pyLower song.genre = pyLower current.genre then 10 else 0)

/-- Modelled from the spec's wording of energy handling: the parsed integer
clamped to the closed range `[1, 5]`, with 3 for an unparsable field. -/
def clampSpec (o : Option Int) : Int :=
  match o with
  | some n => max 1 (min n 5)
  | none => 3

/-! ## Helper lemmas about the parser and the loader -/

/-- Inversion for a successfully parsed line: the song's bpm is nonzero
(the `song.bpm == 0` check failed) and the song was built by `Song.make`. -/
lemma parse_line_ok {line : String} {s : Song} (h : parse_line line = .ok s) :
    s.bpm ≠ 0 ∧ ∃ t a g b e, s = Song.make t a g b e := by
  simp only [parse_line] at h
  split at h
  · cases h
  split at h
  · cases h
  split at h
  · cases h
  split at h
  · split at h
    · cases h
    split at h
    · cases h
    split at h
    · cases h
    · rename_i hbpm
      cases h
      exact ⟨hbpm, _, _, _, _, _, rfl⟩
  · cases h

/-- Any property preserved by one loop iteration holds after the whole
`for line in raw_lines` loop. -/
lemma foldl_processLine_inv (P : LoadState → Prop)
    (hP : ∀ st line, P st → P (processLine st line)) :
    ∀ (lines : List String) (st : LoadState), P st → P (lines.foldl processLine st) := by
  intro lines
  induction lines with
  | nil => intro st hst; exact hst
  | cons l ls ih => intro st hst; exact ih (processLine st l) (hP st l hst)

lemma dropWhile_pyIsSpace_idem (l : List Char) :
    (l.dropWhile pyIsSpace).dropWhile pyIsSpace = l.dropWhile pyIsSpace := by
  induction l with
  | nil => rfl
  | cons a l ih =>
    by_cases h : pyIsSpace a
    · simp [List.dropWhile_cons, h, ih]
    · simp [List.dropWhile_cons, h]

/-- A list fixed by `dropWhile` keeps that property after the
reverse-side strip followed by a reverse: its outermost character still
fails `pyIsSpace`. -/
lemma dropWhile_reverse_dropWhile (A : List Char)
    (hA : A.dropWhile pyIsSpace = A) :
    ((A.reverse.dropWhile pyIsSpace).reverse).dropWhile pyIsSpace
      = (A.reverse.dropWhile pyIsSpace).reverse := by
  cases hA2 : A with
  | nil => simp
  | cons a as =>
    have ha : pyIsSpace a = false := by
      rw [hA2] at hA
      have := List.dropWhile_eq_self_iff.mp hA (by simp)
      simpa using this
    rw [List.reverse_cons, List.dropWhile_append]
    by_cases he : (as.reverse.dropWhile pyIsSpace).isEmpty
    · simp [he, List.dropWhile_cons, ha]
    · simp [he, List.reverse_append, List.dropWhile_cons, ha]

lemma stripChars_idem (l : List Char) :
    stripChars (stripChars l) = stripChars l := by
  unfold stripChars
  rw [dropWhile_reverse_dropWhile (l.dropWhile pyIsSpace) (dropWhile_pyIsSpace_idem l),
      List.reverse_reverse, dropWhile_pyIsSpace_idem]

lemma pyStrip_idem (s : String) : pyStrip (pyStrip s) = pyStrip s := by
  simp only [pyStrip]
  rw [show (String.mk (stripChars s.toList)).toList = stripChars s.toList from rfl,
      stripChars_idem]

/-- The stored energy of a constructed song is the spec-side clamp of the
parsed energy field. -/
lemma Song.make_energy (t a g b e : String) :
    (Song.make t a g b e).energy = clampSpec (pyInt (pyStrip e)) := by
  unfold Song.make clampSpec safe_int
  cases pyInt (pyStrip e) <;>
    simp only [max_def, min_def] <;> split_ifs <;> omega

/-- The score actually computed by `recommend` equals the spec-side score
formula. -/
lemma scoreOf_eq_specScore (c : Song) (g : String) (s : Song) :
    scoreOf c g s = specScore c g s := by
  simp only [scoreOf, specScore, goalAdjSpec]
  split_ifs <;> ring

/-- Unrecognized goals take the `else` (i.e. `"same"`) branch of the score
computation. -/
lemma scoreOf_unrecognized (c : Song) {g : String} (h1 : g ≠ "up")
    (h2 : g ≠ "down") (s : Song) :
    scoreOf c g s = scoreOf c "same" s := by
  simp only [scoreOf]
  rw [if_neg h1, if_neg h2, if_neg (by decide : ¬ ("same" : String) = "up"),
      if_neg (by decide : ¬ ("same" : String) = "down")]

end DJ

namespace DJ

/-- Every recommendation entry's score is the score computed for its own
song, and the song comes from the pool. -/
lemma recommend_mem {c : Song} {g : String} {pool : List Song}
    {r : Int × Song × String} (h : r ∈ recommend c g pool) :
    r.1 = scoreOf c g r.2.1 ∧ r.2.1 ∈ pool := by
  have h1 : r ∈ sortByScoreDesc (recsFor c g pool) := List.mem_of_mem_take h
  have h2 : r ∈ recsFor c g pool := mem_sortByScoreDesc.mp h1
  simp only [recsFor, List.mem_map] at h2
  obtain ⟨song, hsong, rfl⟩ := h2
  exact ⟨rfl, List.mem_of_mem_filter hsong⟩

/-- Forget the explanation string of a recommendation entry, keeping score
and song. -/
def projRec (r : Int × Song × String) : Int × Song :=
  (r.1, r.2.1)

/-- `insertByScore` on score/song pairs (explanations forgotten). -/
def insertPair (x : Int × Song) : List (Int × Song) → List (Int × Song)
  | [] => [x]
  | y :: ys => if x.1 < y.1 then y :: insertPair x ys else x :: y :: ys

/-- `sortByScoreDesc` on score/song pairs (explanations forgotten). -/
def sortPairDesc (l : List (Int × Song)) : List (Int × Song) :=
  l.foldr insertPair []

lemma map_projRec_insertByScore (x : Int × Song × String)
    (l : List (Int × Song × String)) :
    (insertByScore x l).map projRec = insertPair (projRec x) (l.map projRec) := by
  induction l with
  | nil => rfl
  | cons y ys ih =>
    by_cases h : x.1 < y.1 <;>
      simp [insertByScore, insertPair, projRec, h, ih]

lemma map_projRec_sortByScoreDesc (l : List (Int × Song × String)) :
    (sortByScoreDesc l).map projRec = sortPairDesc (l.map projRec) := by
  induction l with
  | nil => rfl
  | cons x xs ih =>
    simp only [sortByScoreDesc, List.foldr_cons, List.map_cons] at *
    rw [map_projRec_insertByScore, ih]
    rfl

/-- For an unrecognized goal, the score/song parts of the per-candidate
tuples agree with the `"same"` run (only explanations can differ). -/
lemma recsFor_proj_unrecognized (c : Song) {g : String} (h1 : g ≠ "up")
    (h2 : g ≠ "down") (pool : List Song) :
    (recsFor c g pool).map projRec = (recsFor c "same" pool).map projRec := by
  simp only [recsFor, List.map_map]
  have hfun :
      (projRec ∘ fun song => (scoreOf c g song, song, whyOf c g song))
        = (projRec ∘ fun song => (scoreOf c "same" song, song, whyOf c "same" song)) := by
    funext song
    simp [projRec, Function.comp, scoreOf_unrecognized c h1 h2]
  rw [hfun]

end DJ

namespace DJ

/-- Inversion for a successful load: the returned catalog and counters are
the components of the final loop state. -/
lemma load_songs_ok {lines : List String} {catalog : List Song} {l k : Nat}
    (h : load_songs (some lines) = .ok (catalog, l, k)) :
    catalog = (lines.foldl processLine initState).songs
    ∧ l = (lines.foldl processLine initState).loaded
    ∧ k = (lines.foldl processLine initState).skipped := by
  simp only [load_songs] at h
  split at h
  · cases h
  · injection h with h2
    exact ⟨(congrArg (fun p => p.1) h2).symm,
      (congrArg (fun p => p.2.1) h2).symm,
      (congrArg (fun p => p.2.2) h2).symm⟩

/-! ## Claim C1 -/

def c1Current : Song := ⟨"Current", "DJ", "house", 120, 3⟩
def c1A : Song := ⟨"A", "ArtistA", "house", 122, 4⟩
def c1B : Song := ⟨"B", "ArtistB", "techno", 100, 5⟩

/-- C1, counterexample: with the claim's inputs, candidate B receives score
`100 - 2*20 + 20 = 80`, not the claimed 60 (the claim's own arithmetic for
`100-2*20+20+0` is wrong); the order `[A, B]` does hold. -/
theorem C1_counterexample :
    (recommend c1Current "up" [c1A, c1B]).map (fun r => (r.1, r.2.1))
        = [(126, c1A), (80, c1B)]
    ∧ (recommend c1Current "up" [c1A, c1B]).map (fun r => r.1) ≠ [126, 60] := by
  constructor
  · decide
  · decide

/-- C1, amended: every score in `recommend` output equals
`100 - 2*|bpm difference|` plus the spec's goal adjustment plus the genre
bonus, and on the claim's concrete inputs the result is A with 126 followed
by B with 80. -/
theorem C1_theorem :
    (∀ (current : Song) (goal : String) (pool : List Song)
        (r : Int × Song × String), r ∈ recommend current goal pool →
        r.1 = 100 - 2 * |r.2.1.bpm - current.bpm|
            + goalAdjSpec goal (r.2.1.energy - current.energy)
            + (if pyLower r.2.1.genre = pyLower current.genre then 10 else 0))
    ∧ (recommend c1Current "up" [c1A, c1B]).map (fun r => (r.1, r.2.1))
        = [(126, c1A), (80, c1B)] := by
  constructor
  · intro current goal pool r hr
    rw [(recommend_mem hr).1, scoreOf_eq_specScore]
    rfl
  · decide

/-- C1, witness: the theorem applied to the top entry of the concrete run. -/
theorem C1_theorem_witness :
    ((126 : Int), c1A, "BPM diff: 2; Energy change: +1 (goal: up); Genre match: +10")
        ∈ recommend c1Current "up" [c1A, c1B]
    ∧ (126 : Int) = 100 - 2 * |c1A.bpm - c1Current.bpm|
        + goalAdjSpec "up" (c1A.energy - c1Current.energy)
        + (if pyLower c1A.genre = pyLower c1Current.genre then 10 else 0) :=
  ⟨by decide,
   C1_theorem.1 c1Current "up" [c1A, c1B]
     ((126 : Int), c1A, "BPM diff: 2; Energy change: +1 (goal: up); Genre match: +10")
     (by decide)⟩

/-! ## Claim C2 -/

/-- C2: `recommend` output is the 5-element truncation of a stable
descending sort: it is sorted by score descending, the sort preserves the
pool-relative order of equal scores (its filter at every score value equals
the unsorted filter), and the result length is `min 5` of the number of
eligible candidates after excluding the current song's key. -/
theorem C2_theorem :
    ∀ (current : Song) (goal : String) (pool : List Song),
      recommend current goal pool
          = (sortByScoreDesc (recsFor current goal pool)).take 5
      ∧ (recommend current goal pool).length
          = min 5 ((pool.filter (fun song => song.key ≠ current.key)).length)
      ∧ List.Pairwise (fun a b => b.1 ≤ a.1) (recommend current goal pool)
      ∧ ∀ k : Int,
          (sortByScoreDesc (recsFor current goal pool)).filter (fun r => r.1 = k)
            = (recsFor current goal pool).filter (fun r => r.1 = k) := by
  intro current goal pool
  refine ⟨rfl, ?_, ?_, fun k => filter_sortByScoreDesc _ k⟩
  · show ((sortByScoreDesc (recsFor current goal pool)).take 5).length = _
    rw [List.length_take, length_sortByScoreDesc]
    simp [recsFor]
  · exact List.Pairwise.sublist (List.take_sublist 5 _)
      (sortedDown_sortByScoreDesc (recsFor current goal pool))

/-! ## Claim C3 -/

/-- C3: the embedded-delimiter line is parsed by splitting the rejoined
left side at its FIRST comma, so the code stores title `"My Neck"` and
artist `"My Back,Unknown Artist"` — not the documented
`title="My Neck, My Back"`, `artist="Unknown Artist"`. -/
theorem C3_theorem :
    load_songs (some ["My Neck, My Back,Unknown Artist,Hip Hop,95,4"])
        = .ok ([⟨"My Neck", "My Back,Unknown Artist", "Hip Hop", 95, 4⟩], 1, 0)
    ∧ ("My Neck" : String) ≠ "My Neck, My Back"
    ∧ ("My Back,Unknown Artist" : String) ≠ "Unknown Artist" :=
  ⟨rfl, by decide, by decide⟩

/-! ## Claim C4 -/

/-- C4, counterexample: the bpm field `"-5"` parses to the negative integer
-5, which is nonzero and therefore accepted — the catalog then contains a
record with `bpm ≤ 0`, refuting the strict `bpm > 0` invariant. -/
theorem C4_counterexample :
    load_songs (some ["T,A,G,-5,3"]) = .ok ([⟨"T", "A", "G", -5, 3⟩], 1, 0)
    ∧ ¬ ((-5 : Int) > 0) :=
  ⟨rfl, by decide⟩

/-- C4, amended: every catalog record has `bpm ≠ 0` (zero or unparsable bpm
rows are excluded and counted as skipped, as the concrete load shows), and
every `recommend` entry's song comes from the pool, so no such row can
appear in recommend output. -/
theorem C4_theorem :
    (∀ (lines : List String) (catalog : List Song) (l k : Nat),
        load_songs (some lines) = .ok (catalog, l, k) →
        ∀ s ∈ catalog, s.bpm ≠ 0)
    ∧ (∀ (current : Song) (goal : String) (pool : List Song)
          (r : Int × Song × String), r ∈ recommend current goal pool →
          r.2.1 ∈ pool)
    ∧ load_songs (some ["T,A,G,0,3", "U,V,W,xx,3", "Ok,Artist,G,100,3"])
        = .ok ([⟨"Ok", "Artist", "G", 100, 3⟩], 1, 2) := by
  refine ⟨?_, ?_, rfl⟩
  · intro lines catalog l k hload s hs
    obtain ⟨hc, -, -⟩ := load_songs_ok hload
    rw [hc] at hs
    have hinv := foldl_processLine_inv
      (fun st => ∀ s ∈ st.songs, s.bpm ≠ 0) ?step lines initState (by simp [initState])
    · exact hinv s hs
    case step =>
      intro st line hst
      rcases hp : parse_line line with - | - | song
      · simpa [processLine, hp] using hst
      · simpa [processLine, hp] using hst
      · simp only [processLine, hp]
        split
        · exact hst
        · intro x hx
          rcases List.mem_append.mp hx with hx | hx
          · exact hst x hx
          · simp only [List.mem_singleton] at hx
            subst hx
            exact (parse_line_ok hp).1
  · intro current goal pool r hr
    exact (recommend_mem hr).2

/-- C4, witness: the amended invariant applied to the concrete load above,
and the pool-membership fact applied to a concrete recommendation. -/
theorem C4_theorem_witness :
    load_songs (some ["T,A,G,0,3", "U,V,W,xx,3", "Ok,Artist,G,100,3"])
        = .ok ([⟨"Ok", "Artist", "G", 100, 3⟩], 1, 2)
    ∧ (⟨"Ok", "Artist", "G", 100, 3⟩ : Song) ∈ [(⟨"Ok", "Artist", "G", 100, 3⟩ : Song)]
    ∧ (⟨"Ok", "Artist", "G", 100, 3⟩ : Song).bpm ≠ 0 :=
  ⟨rfl, by decide,
   C4_theorem.1 ["T,A,G,0,3", "U,V,W,xx,3", "Ok,Artist,G,100,3"]
     [⟨"Ok", "Artist", "G", 100, 3⟩] 1 2 rfl
     ⟨"Ok", "Artist", "G", 100, 3⟩ (by decide)⟩

end DJ

namespace DJ

/-! ## Claim C5 -/

/-- C5, counterexample: with an unrecognized goal the engine scores like
`"same"` but the explanation string takes the `goal != "same"` branch
(`"Energy change: ... (goal: sideways)"`), so the outputs differ. -/
theorem C5_counterexample :
    recommend ⟨"Cur", "X", "house", 120, 3⟩ "sideways" [⟨"A", "a1", "house", 122, 4⟩]
      ≠ recommend ⟨"Cur", "X", "house", 120, 3⟩ "same" [⟨"A", "a1", "house", 122, 4⟩] := by
  decide

/-- C5, amended: for a goal that is neither `"up"` nor `"down"`, the scores,
songs and ordering of `recommend` output agree with the `"same"` run
(only the explanation strings can differ). -/
theorem C5_theorem :
    ∀ (current : Song) (goal : String) (pool : List Song),
      goal ≠ "up" → goal ≠ "down" →
      (recommend current goal pool).map projRec
        = (recommend current "same" pool).map projRec := by
  intro current goal pool h1 h2
  simp only [recommend]
  rw [List.map_take, List.map_take, map_projRec_sortByScoreDesc,
    map_projRec_sortByScoreDesc, recsFor_proj_unrecognized current h1 h2]

/-- C5, witness: the amended statement instantiated at `"sideways"`. -/
theorem C5_theorem_witness :
    ("sideways" : String) ≠ "up" ∧ ("sideways" : String) ≠ "down"
    ∧ (recommend ⟨"Cur", "X", "house", 120, 3⟩ "sideways"
          [⟨"A", "a1", "house", 122, 4⟩]).map projRec
        = (recommend ⟨"Cur", "X", "house", 120, 3⟩ "same"
            [⟨"A", "a1", "house", 122, 4⟩]).map projRec :=
  ⟨by decide, by decide,
   C5_theorem ⟨"Cur", "X", "house", 120, 3⟩ "sideways"
     [⟨"A", "a1", "house", 122, 4⟩] (by decide) (by decide)⟩

/-! ## Claim C6 -/

/-- C6: the stored energy of every constructed song is the parsed energy
field clamped to `[1, 5]` (3 when unparsable); every successfully parsed
line yields energy within `[1, 5]`; and the three concrete rows with energy
fields `"9"`, `"0"` and `"loud"` load (energy never rejects a row) with
stored energies 5, 1 and 3. -/
theorem C6_theorem :
    (∀ t a g b e, (Song.make t a g b e).energy = clampSpec (pyInt (pyStrip e)))
    ∧ (∀ (line : String) (s : Song), parse_line line = .ok s →
        1 ≤ s.energy ∧ s.energy ≤ 5)
    ∧ load_songs (some ["T,A,G,100,9"]) = .ok ([⟨"T", "A", "G", 100, 5⟩], 1, 0)
    ∧ load_songs (some ["T,A,G,100,0"]) = .ok ([⟨"T", "A", "G", 100, 1⟩], 1, 0)
    ∧ load_songs (some ["T,A,G,100,loud"]) = .ok ([⟨"T", "A", "G", 100, 3⟩], 1, 0) := by
  refine ⟨Song.make_energy, ?_, rfl, rfl, rfl⟩
  intro line s h
  obtain ⟨-, t, a, g, b, e, rfl⟩ := parse_line_ok h
  rw [Song.make_energy]
  unfold clampSpec
  cases pyInt (pyStrip e) <;> simp only [max_def, min_def]
  · omega
  · split_ifs <;> omega

/-- C6, witness: the in-range bound applied to a concretely parsed line. -/
theorem C6_theorem_witness :
    parse_line "T,A,G,100,9" = .ok ⟨"T", "A", "G", 100, 5⟩
    ∧ (1 ≤ (⟨"T", "A", "G", 100, 5⟩ : Song).energy
        ∧ (⟨"T", "A", "G", 100, 5⟩ : Song).energy ≤ 5) :=
  ⟨by decide,
   C6_theorem.2.1 "T,A,G,100,9" ⟨"T", "A", "G", 100, 5⟩ (by decide)⟩

/-! ## Claim C7 -/

/-- C7: no two catalog records share an identity key; a parsed line whose
key was already seen leaves the loop state completely unchanged (no append,
no `loaded` or `skipped` increment); and a concrete duplicated-key source
keeps only the first occurrence with its fields intact. -/
theorem C7_theorem :
    (∀ (lines : List String) (catalog : List Song) (l k : Nat),
        load_songs (some lines) = .ok (catalog, l, k) →
        (catalog.map Song.key).Nodup)
    ∧ (∀ (st : LoadState) (line : String) (song : Song),
        parse_line line = .ok song → song.key ∈ st.unique →
        processLine st line = st)
    ∧ load_songs (some ["T,A,G,100,3", "T,A,G,101,4"])
        = .ok ([⟨"T", "A", "G", 100, 3⟩], 1, 0) := by
  refine ⟨?_, ?_, rfl⟩
  · intro lines catalog l k hload
    obtain ⟨hc, -, -⟩ := load_songs_ok hload
    have hinv := foldl_processLine_inv
      (fun st => (st.songs.map Song.key).Nodup
        ∧ ∀ key, key ∈ st.unique ↔ key ∈ st.songs.map Song.key)
      ?step lines initState (by simp [initState])
    · rw [hc]; exact hinv.1
    case step =>
      intro st line hst
      rcases hp : parse_line line with - | - | song
      · simpa [processLine, hp] using hst
      · simpa [processLine, hp] using hst
      · simp only [processLine, hp]
        split
        · exact hst
        · rename_i hnot
          obtain ⟨hnd, hiff⟩ := hst
          constructor
          · rw [List.map_append, List.nodup_append]
            refine ⟨hnd, by simp, ?_⟩
            intro x hx hx2
            simp only [List.map_cons, List.map_nil, List.mem_singleton] at hx2
            subst hx2
            exact hnot ((hiff song.key).mpr hx)
          · intro key
            simp only [List.mem_cons, List.map_append, List.mem_append,
              List.map_cons, List.map_nil, List.mem_singleton]
            rw [hiff key]
            tauto
  · intro st line song hp hmem
    simp only [processLine, hp]
    rw [if_pos hmem]

/-- C7, witness: a re-parsed duplicate of an already-seen key leaves a
concrete loop state untouched. -/
theorem C7_theorem_witness :
    parse_line "T,A,G,101,4" = .ok ⟨"T", "A", "G", 101, 4⟩
    ∧ (⟨"T", "A", "G", 101, 4⟩ : Song).key ∈ [(("t", "a") : String × String)]
    ∧ processLine ⟨[], [("t", "a")], 0, 0⟩ "T,A,G,101,4" = ⟨[], [("t", "a")], 0, 0⟩ :=
  ⟨by decide, by decide,
   C7_theorem.2.1 ⟨[], [("t", "a")], 0, 0⟩ "T,A,G,101,4" ⟨"T", "A", "G", 101, 4⟩
     (by decide) (by decide)⟩

/-! ## Claim C8 -/

/-- C8, counterexample: the line `",Artist,Genre,100,3"` is accepted and
produces a catalog record with an empty title, refuting the non-emptiness
invariant. -/
theorem C8_counterexample :
    load_songs (some [",Artist,Genre,100,3"])
        = .ok ([⟨"", "Artist", "Genre", 100, 3⟩], 1, 0)
    ∧ (⟨"", "Artist", "Genre", 100, 3⟩ : Song).title = "" :=
  ⟨rfl, rfl⟩

/-- C8, amended: every catalog record's title and artist are whitespace-
trimmed (stripping them again changes nothing), but they may be empty. -/
theorem C8_theorem :
    ∀ (lines : List String) (catalog : List Song) (l k : Nat),
      load_songs (some lines) = .ok (catalog, l, k) →
      ∀ s ∈ catalog, pyStrip s.title = s.title ∧ pyStrip s.artist = s.artist := by
  intro lines catalog l k hload s hs
  obtain ⟨hc, -, -⟩ := load_songs_ok hload
  rw [hc] at hs
  have hinv := foldl_processLine_inv
    (fun st => ∀ s ∈ st.songs, pyStrip s.title = s.title ∧ pyStrip s.artist = s.artist)
    ?step lines initState (by simp [initState])
  · exact hinv s hs
  case step =>
    intro st line hst
    rcases hp : parse_line line with - | - | song
    · simpa [processLine, hp] using hst
    · simpa [processLine, hp] using hst
    · simp only [processLine, hp]
      split
      · exact hst
      · intro x hx
        rcases List.mem_append.mp hx with hx | hx
        · exact hst x hx
        · simp only [List.mem_singleton] at hx
          subst hx
          obtain ⟨-, t, a, g, b, e, rfl⟩ := parse_line_ok hp
          exact ⟨pyStrip_idem t, pyStrip_idem a⟩

/-- C8, witness: the trimmedness fact applied to the concretely loaded
empty-title record. -/
theorem C8_theorem_witness :
    load_songs (some [",Artist,Genre,100,3"])
        = .ok ([⟨"", "Artist", "Genre", 100, 3⟩], 1, 0)
    ∧ (⟨"", "Artist", "Genre", 100, 3⟩ : Song) ∈ [(⟨"", "Artist", "Genre", 100, 3⟩ : Song)]
    ∧ (pyStrip "" = "" ∧ pyStrip "Artist" = "Artist") :=
  ⟨rfl, by decide,
   C8_theorem [",Artist,Genre,100,3"] [⟨"", "Artist", "Genre", 100, 3⟩] 1 0 rfl
     ⟨"", "Artist", "Genre", 100, 3⟩ (by decide)⟩

/-! ## Claim C9 -/

/-- C9: the loader fails `CatalogMissing` exactly when the source is
absent, fails `CatalogEmpty` exactly when no valid record survives the
loop, returns the catalog in every other case, and on a concrete
header-and-blanks-only source fails `CatalogEmpty`. -/
theorem C9_theorem :
    (∀ source, load_songs source = .error .CatalogMissing ↔ source = none)
    ∧ (∀ lines : List String,
        load_songs (some lines) = .error .CatalogEmpty
          ↔ (lines.foldl processLine initState).songs = [])
    ∧ (∀ lines : List String,
        load_songs (some lines)
            = .ok ((lines.foldl processLine initState).songs,
                (lines.foldl processLine initState).loaded,
                (lines.foldl processLine initState).skipped)
          ↔ (lines.foldl processLine initState).songs ≠ [])
    ∧ load_songs (some ["Title,Artist,Genre,BPM,Energy", "", "   "])
        = .error .CatalogEmpty := by
  refine ⟨?_, ?_, ?_, rfl⟩
  · intro source
    cases source with
    | none => simp [load_songs]
    | some lines =>
      simp only [load_songs]
      split <;> simp
  · intro lines
    simp only [load_songs]
    split <;> rename_i h <;> simp [h]
  · intro lines
    simp only [load_songs]
    split <;> rename_i h <;> simp [h]

/-! ## Claim C10 -/

/-- C10: the reported loaded count equals the length of the returned
catalog — the counter is incremented exactly when a record is appended. -/
theorem C10_theorem :
    ∀ (lines : List String) (catalog : List Song) (l k : Nat),
      load_songs (some lines) = .ok (catalog, l, k) → l = catalog.length := by
  intro lines catalog l k hload
  obtain ⟨hc, hl, -⟩ := load_songs_ok hload
  have hinv := foldl_processLine_inv (fun st => st.loaded = st.songs.length)
    ?step lines initState (by simp [initState])
  · rw [hl, hc]; exact hinv
  case step =>
    intro st line hst
    rcases hp : parse_line line with - | - | song
    · simpa [processLine, hp] using hst
    · simpa [processLine, hp] using hst
    · simp only [processLine, hp]
      split
      · exact hst
      · simp [hst]

/-- C10, witness: the count/length equality on a concrete load. -/
theorem C10_theorem_witness :
    load_songs (some ["T,A,G,100,3"]) = .ok ([⟨"T", "A", "G", 100, 3⟩], 1, 0)
    ∧ (1 : Nat) = [(⟨"T", "A", "G", 100, 3⟩ : Song)].length :=
  ⟨rfl,
   C10_theorem ["T,A,G,100,3"] [⟨"T", "A", "G", 100, 3⟩] 1 0 rfl⟩

end DJ
